import Mathlib

/-!
Shallow embedding of the asynchronous job orchestrator in
`src/deep_research/main.py` (the `deep_research` batch job of the
coordinated-assignment-education repository).

Text is modelled as `List Char` (ASCII); timestamps as `Nat` seconds;
the external API / clock / database behaviour of one loop iteration is an
explicit `EnvStep` record, and one iteration of the `process_jobs` while
loop is the function `processStep`.  `json.loads` is an external library
function and is abstracted as a parameter `loads : List Char → Option Json`;
the repository's own code around it (the code-fence stripping retry, the
truthiness test, `to_text`, the SQL update and the pending filter) is
translated directly.
-/

namespace DeepResearch

/-- Configured constant `MAX_RETRIES = 2` from main.py. -/
def MAX_RETRIES : Nat := 2

/-- Configured constant `JOB_TIMEOUT_MINUTES = 20` from main.py. -/
def JOB_TIMEOUT_MINUTES : Nat := 20

/-- Configured constant `POLL_INTERVAL = 1` (seconds) from main.py. -/
def POLL_INTERVAL : Nat := 1

/-- JSON values, as produced by `json.loads` (numbers restricted to
integers; floats are out of scope for every claim). -/
inductive Json where
  | null
  | bool (b : Bool)
  | num (n : Int)
  | str (s : List Char)
  | arr (elems : List Json)
  | obj (fields : List (List Char × Json))

/-- Python truthiness of a decoded JSON value: `None`, `False`, `0`, `""`,
`[]` and `\x7b\x7d` are falsy. -/
def truthy : Json → Bool
  | .null => false
  | .bool b => b
  | .num n => decide (n ≠ 0)
  | .str s => !s.isEmpty
  | .arr xs => !xs.isEmpty
  | .obj fs => !fs.isEmpty

/-- Whitespace as stripped by Python `str.strip()` / matched by regex `\s`
(ASCII range). -/
def isPySpace (c : Char) : Bool :=
  c = ' ' || c = '\t' || c = '\n' || c = '\r' ||
  c = Char.ofNat 11 || c = Char.ofNat 12

/-- Drop leading whitespace. -/
def dropLeadWs (l : List Char) : List Char := l.dropWhile isPySpace

/-- Drop trailing whitespace. -/
def dropTrailWs (l : List Char) : List Char :=
  (l.reverse.dropWhile isPySpace).reverse

/-- Python `str.strip()`. -/
def pyStrip (l : List Char) : List Char := dropTrailWs (dropLeadWs l)

/-- Models `re.sub(r"^` ++ three backticks ++ `(?:json)?\s*", "", s,
flags=re.IGNORECASE)` (main.py line 80): if the text starts with a code
fence, remove it, an optional case-insensitive `json` tag, and following
whitespace. -/
def stripLeadFence (l : List Char) : List Char :=
  if ("```".toList).isPrefixOf l then
    if ((l.drop 3).take 4).map Char.toLower = "json".toList then
      dropLeadWs ((l.drop 3).drop 4)
    else dropLeadWs (l.drop 3)
  else l

/-- Models `re.sub(r"\s*` ++ three backticks ++ `$", "", s)` (main.py line
81): if the text ends with a code fence, remove it and the whitespace run
before it. -/
def stripTrailFence (l : List Char) : List Char :=
  if ("```".toList).isPrefixOf l.reverse then
    ((l.reverse.drop 3).dropWhile isPySpace).reverse
  else l

/-- The JSON-extraction logic inside `poll_result` (main.py lines 75-85):
try `json.loads` on the raw output text; on decode failure, strip the text
and one leading/trailing code-fence marker and retry once.  `none` models
both attempts raising `JSONDecodeError`. -/
def parseOutput (loads : List Char → Option Json) (text : List Char) :
    Option Json :=
  match loads text with
  | some v => some v
  | none => loads (stripTrailFence (stripLeadFence (pyStrip text)))

/-- The mutable per-record `Job` object of main.py (lines 21-31). -/
structure Job where
  rowid : Nat
  country : List Char
  city : List Char
  education_level : List Char
  job_id : Option Nat := none
  submitted_at : Option Nat := none
  completed : Bool := false
  failed : Bool := false
  times : Nat := 0
deriving DecidableEq

/-- One row of the `ccas_city` table: key columns plus the fifteen output
columns written by `save_result` (`none` models SQL NULL). -/
structure DbRow where
  rowid : Nat
  country : List Char
  city : List Char
  education_level : List Char
  ccas_status : Option (List Char) := none
  ccas_status_source : Option (List Char) := none
  participating_institutions : Option (List Char) := none
  participating_institutions_source : Option (List Char) := none
  preference_list_length : Option (List Char) := none
  preference_list_length_source : Option (List Char) := none
  priority_criteria : Option (List Char) := none
  priority_criteria_source : Option (List Char) := none
  assignment_mechanism : Option (List Char) := none
  assignment_mechanism_source : Option (List Char) := none
  adoption_year : Option (List Char) := none
  adoption_year_source : Option (List Char) := none
  reform_year : Option (List Char) := none
  reform_year_source : Option (List Char) := none
  notes : Option (List Char) := none
deriving DecidableEq

/-- SQLite `TRIM(x)` (default: strips space characters only). -/
def sqlTrim (l : List Char) : List Char :=
  ((l.dropWhile (fun c => c = ' ')).reverse.dropWhile
    (fun c => c = ' ')).reverse

/-- The WHERE filter of `fetch_pending_rows`: `ccas_status IS NULL OR
TRIM(ccas_status) = ''`. -/
def rowPending (r : DbRow) : Bool :=
  match r.ccas_status with
  | none => true
  | some s => (sqlTrim s).isEmpty

/-- `fetch_pending_rows` (main.py lines 33-50): one fresh `Job` per pending
row, in table order. -/
def fetch_pending_rows (db : List DbRow) : List Job :=
  (db.filter rowPending).map fun r =>
    { rowid := r.rowid, country := r.country, city := r.city,
      education_level := r.education_level }

/-- The external world's behaviour during one iteration of the
`process_jobs` loop: whether `client.responses.create` raises, the handle
it returns otherwise, the value of `datetime.now()`, whether
`client.responses.retrieve` raises, the status and output text it returns
otherwise, and whether the database write in `save_result` raises. -/
structure EnvStep where
  submitRaises : Bool
  handle : Nat
  now : Nat
  pollRaises : Bool
  status : List Char
  output_text : List Char
  saveRaises : Bool
deriving DecidableEq

/-- `submit_job` (main.py lines 52-63).  `none` models the `create` call
raising: this happens before any field of the job is mutated, so the job
is returned to the caller unchanged (in particular `times` is NOT
incremented).  On success the handle, timestamp and attempt counter are
set. -/
def submit_job (e : EnvStep) (job : Job) : Option Job :=
  if e.submitRaises then none
  else some { job with job_id := some e.handle,
                       submitted_at := some e.now,
                       times := job.times + 1 }

/-- The classification returned by `poll_result`: `(True, payload)`,
`(False, None)` or `(None, None)` in the Python source. -/
inductive PollRes where
  | success (v : Json)
  | failure
  | pending

/-- `poll_result` (main.py lines 66-92).  The whole body is wrapped in a
`try` whose handler returns `(False, None)`: a raising `retrieve` call —
including `retrieve(None)` when the job has no handle — and a missing
`submitted_at` (the elapsed-time subtraction raises) are both `failure`.
Timestamps are seconds, so the timeout bound is
`JOB_TIMEOUT_MINUTES * 60`. -/
def poll_result (loads : List Char → Option Json) (e : EnvStep)
    (job : Job) : PollRes :=
  if e.pollRaises ∨ job.job_id = none then .failure
  else
    match job.submitted_at with
    | none => .failure
    | some t0 =>
      if e.status = "succeeded".toList ∨ e.status = "completed".toList then
        match parseOutput loads e.output_text with
        | some v => .success v
        | none => .failure
      else if e.status = "failed".toList ∨ e.status = "cancelled".toList ∨
          e.now - t0 > JOB_TIMEOUT_MINUTES * 60 then .failure
      else .pending

/-- Hexadecimal digit, lowercase. -/
def hexDigit (n : Nat) : Char :=
  if n < 10 then Char.ofNat (48 + n) else Char.ofNat (87 + n)

/-- JSON string escaping as in `json.dumps` (ensure_ascii=False): quote,
backslash and control characters are escaped, everything else is kept. -/
def escapeChar (c : Char) : List Char :=
  if c = '"' then ['\\', '"']
  else if c = '\\' then ['\\', '\\']
  else if c = '\n' then ['\\', 'n']
  else if c = '\t' then ['\\', 't']
  else if c = '\r' then ['\\', 'r']
  else if c = Char.ofNat 8 then ['\\', 'b']
  else if c = Char.ofNat 12 then ['\\', 'f']
  else if c.toNat < 32 then
    ['\\', 'u', '0', '0', hexDigit (c.toNat / 16), hexDigit (c.toNat % 16)]
  else [c]

mutual

/-- `json.dumps(value, ensure_ascii=False)` with the default separators
`", "` and `": "`, as called by `to_text`. -/
def jsonDumps : Json → List Char
  | .null => "null".toList
  | .bool true => "true".toList
  | .bool false => "false".toList
  | .num n => (toString n).toList
  | .str s => '"' :: ((s.map escapeChar).flatten ++ ['"'])
  | .arr xs => '[' :: (dumpsArr xs ++ [']'])
  | .obj fs => Char.ofNat 123 :: (dumpsObj fs ++ [Char.ofNat 125])

/-- Comma-separated dump of array elements. -/
def dumpsArr : List Json → List Char
  | [] => []
  | [x] => jsonDumps x
  | x :: xs => jsonDumps x ++ ", ".toList ++ dumpsArr xs

/-- Comma-separated dump of object entries. -/
def dumpsObj : List (List Char × Json) → List Char
  | [] => []
  | [(k, v)] => '"' :: ((k.map escapeChar).flatten ++ ['"'] ++ ": ".toList
      ++ jsonDumps v)
  | (k, v) :: fs => '"' :: ((k.map escapeChar).flatten ++ ['"'] ++ ": ".toList
      ++ jsonDumps v ++ ", ".toList ++ dumpsObj fs)

end

/-- `to_text` (main.py lines 94-99) applied to a decoded JSON value.
Python's `json.loads` renders JSON `null` as `None`, so the `null` case is
the `value is None` branch returning `""`; dicts and lists go through
`json.dumps`; everything else through `str`. -/
def to_text : Json → List Char
  | .null => []
  | .bool true => "True".toList
  | .bool false => "False".toList
  | .num n => (toString n).toList
  | .str s => s
  | v@(.arr _) => jsonDumps v
  | v@(.obj _) => jsonDumps v

/-- `json_output.get(key)` on a decoded dict: first binding of the key, or
`None`. -/
def jget (fs : List (List Char × Json)) (k : List Char) : Option Json :=
  (fs.find? fun p => p.1 = k).map Prod.snd

/-- `to_text(json_output.get(key))`: a missing key yields `None` hence
`""`. -/
def toTextOpt (o : Option Json) : List Char :=
  match o with
  | none => []
  | some v => to_text v

/-- The SET clause of the UPDATE in `save_result`: all fifteen output
columns are overwritten with `to_text(json_output.get(key))`. -/
def updateRow (r : DbRow) (fs : List (List Char × Json)) : DbRow :=
  { r with
          ccas_status := some (toTextOpt (jget fs ("ccas_status".toList))),
          ccas_status_source :=
            some (toTextOpt (jget fs ("ccas_status_source".toList))),
          participating_institutions :=
            some (toTextOpt (jget fs ("participating_institutions".toList))),
          participating_institutions_source :=
            some (toTextOpt
              (jget fs ("participating_institutions_source".toList))),
          preference_list_length :=
            some (toTextOpt (jget fs ("preference_list_length".toList))),
          preference_list_length_source :=
            some (toTextOpt
              (jget fs ("preference_list_length_source".toList))),
          priority_criteria :=
            some (toTextOpt (jget fs ("priority_criteria".toList))),
          priority_criteria_source :=
            some (toTextOpt (jget fs ("priority_criteria_source".toList))),
          assignment_mechanism :=
            some (toTextOpt (jget fs ("assignment_mechanism".toList))),
          assignment_mechanism_source :=
            some (toTextOpt (jget fs ("assignment_mechanism_source".toList))),
          adoption_year := some (toTextOpt (jget fs ("adoption_year".toList))),
          adoption_year_source :=
            some (toTextOpt (jget fs ("adoption_year_source".toList))),
          reform_year := some (toTextOpt (jget fs ("reform_year".toList))),
          reform_year_source :=
            some (toTextOpt (jget fs ("reform_year_source".toList))),
          notes := some (toTextOpt (jget fs ("notes".toList))) }

/-- `save_result` (main.py lines 101-140).  `json_output.get` is only
defined on dicts: on any non-dict payload the first `.get` raises
`AttributeError` before the UPDATE runs, modelled by `none`.  On a dict the
UPDATE sets all fifteen output columns of the row with the job's rowid
(a no-op when no row matches, as in SQL). -/
def save_result (db : List DbRow) (job : Job) (json_output : Json) :
    Option (List DbRow) :=
  match json_output with
  | .obj fs => some (db.map fun r =>
      if r.rowid = job.rowid then updateRow r fs else r)
  | _ => none

/-- State of one run of `process_jobs`: the FIFO queue, a ledger of jobs
dropped from the queue (with the field values they had at that moment),
the database, and a log of every invocation of `save_result`. -/
structure OrchState where
  queue : List Job
  dropped : List Job
  db : List DbRow
  saveCalls : List (Nat × Json)

/-- The broad `except` handler of `process_jobs` (lines 170-176), which is
also literally the `done is False` branch (lines 160-167): with retry
budget left, clear the handle and re-enqueue; otherwise mark the job
permanently failed and drop it. -/
def retryOrFail (job : Job) (rest : List Job) (s : OrchState) : OrchState :=
  if job.times < MAX_RETRIES then
    { s with queue := rest ++ [{ job with job_id := none }] }
  else
    { s with queue := rest,
             dropped := s.dropped ++ [{ job with failed := true }] }

/-- One iteration of the `while job_queue` loop of `process_jobs`
(main.py lines 142-181): pop the head; drop it if terminal; submit and
re-enqueue if it has no handle and budget remains (a raising `create`
falls to the `except` handler); otherwise poll and dispatch on the
outcome.  Note the success branch requires the parsed payload to be
TRUTHY (`if done is True and json_output`); a falsy payload falls through
to the still-pending re-enqueue.  A raising `save_result` falls to the
`except` handler after the invocation is logged. -/
def processStep (loads : List Char → Option Json) (e : EnvStep)
    (s : OrchState) : OrchState :=
  match s.queue with
  | [] => s
  | job :: rest =>
    if job.completed ∨ job.failed then
      { s with queue := rest, dropped := s.dropped ++ [job] }
    else if job.job_id = none ∧ job.times < MAX_RETRIES then
      match submit_job e job with
      | some j => { s with queue := rest ++ [j] }
      | none => retryOrFail job rest s
    else
      match poll_result loads e job with
      | .success v =>
        if truthy v then
          let s1 : OrchState :=
            { s with saveCalls := s.saveCalls ++ [(job.rowid, v)] }
          match save_result s1.db job v with
          | some db' =>
            if e.saveRaises then retryOrFail job rest s1
            else
              { s1 with queue := rest,
                        dropped := s1.dropped ++ [{ job with completed := true }],
                        db := db' }
          | none => retryOrFail job rest s1
        else
          { s with queue := rest ++ [job] }
      | .failure => retryOrFail job rest s
      | .pending => { s with queue := rest ++ [job] }

/-- Run the loop for one `EnvStep` per iteration. -/
def processRun (loads : List Char → Option Json) :
    List EnvStep → OrchState → OrchState
  | [], s => s
  | e :: es, s => processRun loads es (processStep loads e s)

/-- Initial state of `main()`: the queue from `fetch_pending_rows`, empty
ledgers, the database as fetched. -/
def initState (db : List DbRow) : OrchState :=
  { queue := fetch_pending_rows db, dropped := [], db := db, saveCalls := [] }

/-- The fenced form of a text: a tagged opening code fence, a newline, the
text, a newline, a closing code fence. -/
def fenceWrap (t : List Char) : List Char :=
  "```json\n".toList ++ (t ++ "\n```".toList)

theorem dropLeadWs_append_nil (A X : List Char) (h : dropLeadWs A = []) :
    dropLeadWs (A ++ X) = dropLeadWs X := by
  unfold dropLeadWs at *
  rw [List.dropWhile_append, h]
  rfl

theorem dropLeadWs_append_pos (A X : List Char) (c : Char) (r : List Char)
    (h : dropLeadWs A = c :: r) : dropLeadWs (A ++ X) = c :: (r ++ X) := by
  unfold dropLeadWs at *
  rw [List.dropWhile_append, h]
  rfl

/-- `strip()` leaves the fenced text unchanged: it begins and ends with a
backtick, which is not whitespace. -/
theorem pyStrip_fenceWrap (t : List Char) :
    pyStrip (fenceWrap t) = fenceWrap t := by
  unfold pyStrip fenceWrap dropTrailWs
  rw [show dropLeadWs ("```json\n".toList ++ (t ++ "\n```".toList)) =
        "```json\n".toList ++ (t ++ "\n```".toList) from rfl]
  rw [← List.append_assoc, List.reverse_append]
  rw [show (("\n```".toList).reverse ++ ("```json\n".toList ++ t).reverse).dropWhile
        isPySpace =
      ("\n```".toList).reverse ++ ("```json\n".toList ++ t).reverse from rfl]
  rw [← List.reverse_append, List.reverse_reverse, List.append_assoc]

/-- Stripping a trailing fence from a text that ends in one removes exactly
the fence and the whitespace run before it. -/
theorem stripTrailFence_fenced (X : List Char) :
    stripTrailFence (X ++ "\n```".toList) = dropTrailWs X := by
  unfold stripTrailFence dropTrailWs
  rw [List.reverse_append]
  rfl

/-- Composition of the two fence-stripping substitutions on a stripped
fenced text yields the stripped inner text. -/
theorem stripFences_fenceWrap (t : List Char) :
    stripTrailFence (stripLeadFence (pyStrip (fenceWrap t))) = pyStrip t := by
  rw [pyStrip_fenceWrap]
  rw [show stripLeadFence (fenceWrap t) = dropLeadWs (t ++ "\n```".toList)
      from rfl]
  cases hc : dropLeadWs t with
  | nil =>
      rw [dropLeadWs_append_nil t _ hc]
      rw [show dropLeadWs ("\n```".toList) = "```".toList from rfl]
      rw [show stripTrailFence ("```".toList) = ([] : List Char) from rfl]
      unfold pyStrip
      rw [hc]
      rfl
  | cons c r =>
      rw [dropLeadWs_append_pos t _ c r hc]
      rw [show (c :: (r ++ "\n```".toList)) = (c :: r) ++ "\n```".toList
          from rfl]
      rw [stripTrailFence_fenced]
      unfold pyStrip
      rw [hc]

/-! ### Characterization of one loop iteration, per branch -/

theorem processStep_terminal (loads : List Char → Option Json) (e : EnvStep)
    (s : OrchState) (job : Job) (rest : List Job)
    (hq : s.queue = job :: rest)
    (hterm : job.completed = true ∨ job.failed = true) :
    processStep loads e s =
      { s with queue := rest, dropped := s.dropped ++ [job] } := by
  unfold processStep
  rw [hq]
  rcases hterm with h | h <;> simp [h]

theorem processStep_submit_ok (loads : List Char → Option Json) (e : EnvStep)
    (s : OrchState) (job : Job) (rest : List Job)
    (hq : s.queue = job :: rest) (hc : job.completed = false)
    (hf : job.failed = false) (hid : job.job_id = none)
    (hlt : job.times < MAX_RETRIES) (hr : e.submitRaises = false) :
    processStep loads e s =
      { s with queue := rest ++
          [{ job with job_id := some e.handle,
                      submitted_at := some e.now,
                      times := job.times + 1 }] } := by
  unfold processStep submit_job
  rw [hq]
  simp [hc, hf, hid, hlt, hr]

theorem processStep_submit_raise (loads : List Char → Option Json)
    (e : EnvStep) (s : OrchState) (job : Job) (rest : List Job)
    (hq : s.queue = job :: rest) (hc : job.completed = false)
    (hf : job.failed = false) (hid : job.job_id = none)
    (hlt : job.times < MAX_RETRIES) (hr : e.submitRaises = true) :
    processStep loads e s =
      { s with queue := rest ++ [{ job with job_id := none }] } := by
  unfold processStep submit_job retryOrFail
  rw [hq]
  simp [hc, hf, hid, hlt, hr]

theorem processStep_poll_failure (loads : List Char → Option Json)
    (e : EnvStep) (s : OrchState) (job : Job) (rest : List Job) (h : Nat)
    (hq : s.queue = job :: rest) (hc : job.completed = false)
    (hf : job.failed = false) (hid : job.job_id = some h)
    (hpoll : poll_result loads e job = PollRes.failure) :
    processStep loads e s = retryOrFail job rest s := by
  unfold processStep
  rw [hq]
  simp [hc, hf, hid, hpoll]

theorem processStep_poll_pending (loads : List Char → Option Json)
    (e : EnvStep) (s : OrchState) (job : Job) (rest : List Job) (h : Nat)
    (hq : s.queue = job :: rest) (hc : job.completed = false)
    (hf : job.failed = false) (hid : job.job_id = some h)
    (hpoll : poll_result loads e job = PollRes.pending) :
    processStep loads e s = { s with queue := rest ++ [job] } := by
  unfold processStep
  rw [hq]
  simp [hc, hf, hid, hpoll]

theorem processStep_success_falsy (loads : List Char → Option Json)
    (e : EnvStep) (s : OrchState) (job : Job) (rest : List Job) (h : Nat)
    (v : Json)
    (hq : s.queue = job :: rest) (hc : job.completed = false)
    (hf : job.failed = false) (hid : job.job_id = some h)
    (hpoll : poll_result loads e job = PollRes.success v)
    (htr : truthy v = false) :
    processStep loads e s = { s with queue := rest ++ [job] } := by
  unfold processStep
  rw [hq]
  simp [hc, hf, hid, hpoll, htr]

theorem processStep_save_ok (loads : List Char → Option Json) (e : EnvStep)
    (s : OrchState) (job : Job) (rest : List Job) (h : Nat)
    (fs : List (List Char × Json))
    (hq : s.queue = job :: rest) (hc : job.completed = false)
    (hf : job.failed = false) (hid : job.job_id = some h)
    (hpoll : poll_result loads e job = PollRes.success (Json.obj fs))
    (htr : truthy (Json.obj fs) = true) (hsr : e.saveRaises = false) :
    processStep loads e s =
      { queue := rest,
        dropped := s.dropped ++ [{ job with completed := true }],
        db := s.db.map fun r =>
          if r.rowid = job.rowid then updateRow r fs else r,
        saveCalls := s.saveCalls ++ [(job.rowid, Json.obj fs)] } := by
  unfold processStep save_result
  rw [hq]
  simp [hc, hf, hid, hpoll, htr, hsr]

theorem processStep_save_raise (loads : List Char → Option Json)
    (e : EnvStep) (s : OrchState) (job : Job) (rest : List Job) (h : Nat)
    (fs : List (List Char × Json))
    (hq : s.queue = job :: rest) (hc : job.completed = false)
    (hf : job.failed = false) (hid : job.job_id = some h)
    (hpoll : poll_result loads e job = PollRes.success (Json.obj fs))
    (htr : truthy (Json.obj fs) = true) (hsr : e.saveRaises = true) :
    processStep loads e s =
      retryOrFail job rest
        { s with saveCalls := s.saveCalls ++ [(job.rowid, Json.obj fs)] } := by
  unfold processStep save_result
  rw [hq]
  simp [hc, hf, hid, hpoll, htr, hsr]

theorem processStep_save_attrError (loads : List Char → Option Json)
    (e : EnvStep) (s : OrchState) (job : Job) (rest : List Job) (h : Nat)
    (v : Json)
    (hq : s.queue = job :: rest) (hc : job.completed = false)
    (hf : job.failed = false) (hid : job.job_id = some h)
    (hpoll : poll_result loads e job = PollRes.success v)
    (htr : truthy v = true) (hobj : save_result s.db job v = none) :
    processStep loads e s =
      retryOrFail job rest
        { s with saveCalls := s.saveCalls ++ [(job.rowid, v)] } := by
  unfold processStep
  rw [hq]
  simp [hc, hf, hid, hpoll, htr, hobj]

/-! ### Reachability invariant of the orchestrator -/

/-- Invariant of every job sitting in the queue: not terminal, a missing
handle implies remaining retry budget, and the attempt counter is within
the budget. -/
def queuedOK (j : Job) : Prop :=
  j.completed = false ∧ j.failed = false ∧
  (j.job_id = none → j.times < MAX_RETRIES) ∧ j.times ≤ MAX_RETRIES

instance (j : Job) : Decidable (queuedOK j) := by
  unfold queuedOK
  infer_instance

/-- Invariant of every job dropped from the queue: terminal, in exactly one
of the two terminal states, still carrying the handle of its last
submission, and within the retry budget. -/
def droppedOK (j : Job) : Prop :=
  (j.completed = true ∨ j.failed = true) ∧
  ¬(j.completed = true ∧ j.failed = true) ∧
  j.job_id ≠ none ∧ j.times ≤ MAX_RETRIES

instance (j : Job) : Decidable (droppedOK j) := by
  unfold droppedOK
  infer_instance

/-- Global state invariant of a `process_jobs` run. -/
def Inv (s : OrchState) : Prop :=
  (∀ j ∈ s.queue, queuedOK j) ∧ ∀ j ∈ s.dropped, droppedOK j

instance (s : OrchState) : Decidable (Inv s) := by
  unfold Inv
  infer_instance

theorem inv_retryOrFail (job : Job) (rest : List Job) (s : OrchState)
    (hc : job.completed = false) (hf : job.failed = false)
    (hle : job.times ≤ MAX_RETRIES)
    (hone : job.times < MAX_RETRIES ∨ job.job_id ≠ none)
    (hrest : ∀ j ∈ rest, queuedOK j)
    (hd : ∀ j ∈ s.dropped, droppedOK j) :
    Inv (retryOrFail job rest s) := by
  unfold retryOrFail
  by_cases hlt : job.times < MAX_RETRIES
  · rw [if_pos hlt]
    refine ⟨?_, hd⟩
    intro j hj
    rcases List.mem_append.mp hj with hj | hj
    · exact hrest j hj
    · rw [List.mem_singleton] at hj
      subst hj
      exact ⟨hc, hf, fun _ => hlt, hle⟩
  · rw [if_neg hlt]
    refine ⟨hrest, ?_⟩
    intro j hj
    rcases List.mem_append.mp hj with hj | hj
    · exact hd j hj
    · rw [List.mem_singleton] at hj
      subst hj
      refine ⟨Or.inr rfl, ?_, ?_, hle⟩
      · rintro ⟨h1, _⟩
        rw [hc] at h1
        exact Bool.false_ne_true h1
      · rcases hone with h | h
        · exact absurd h hlt
        · exact h

theorem inv_processStep (loads : List Char → Option Json) (e : EnvStep)
    (s : OrchState) (h : Inv s) : Inv (processStep loads e s) := by
  obtain ⟨hqOK, hdOK⟩ := h
  rcases hs : s.queue with _ | ⟨job, rest⟩
  · unfold processStep
    rw [hs]
    exact ⟨hqOK, hdOK⟩
  · have hjob := hqOK job (by rw [hs]; exact List.mem_cons_self _ _)
    have hrest : ∀ j ∈ rest, queuedOK j := fun j hj =>
      hqOK j (by rw [hs]; exact List.mem_cons_of_mem _ hj)
    obtain ⟨hc, hf, himp, hle⟩ := hjob
    rcases hidc : job.job_id with _ | hdl
    · have hlt := himp hidc
      cases hsr : e.submitRaises with
      | false =>
        rw [processStep_submit_ok loads e s job rest hs hc hf hidc hlt hsr]
        refine ⟨?_, hdOK⟩
        intro j hj
        rcases List.mem_append.mp hj with hj | hj
        · exact hrest j hj
        · rw [List.mem_singleton] at hj
          subst hj
          refine ⟨hc, hf, by simp, ?_⟩
          show job.times + 1 ≤ MAX_RETRIES
          omega
      | true =>
        rw [processStep_submit_raise loads e s job rest hs hc hf hidc hlt hsr]
        refine ⟨?_, hdOK⟩
        intro j hj
        rcases List.mem_append.mp hj with hj | hj
        · exact hrest j hj
        · rw [List.mem_singleton] at hj
          subst hj
          exact ⟨hc, hf, fun _ => hlt, hle⟩
    · have hid' : job.job_id ≠ none := by rw [hidc]; exact Option.some_ne_none _
      rcases hp : poll_result loads e job with v | _ | _
      case success =>
        cases htr : truthy v with
        | false =>
          rw [processStep_success_falsy loads e s job rest hdl v hs hc hf hidc
            hp htr]
          refine ⟨?_, hdOK⟩
          intro j hj
          rcases List.mem_append.mp hj with hj | hj
          · exact hrest j hj
          · rw [List.mem_singleton] at hj
            subst hj
            exact ⟨hc, hf, himp, hle⟩
        | true =>
          rcases v with _ | b | n | st | xs | fs
          · simp [truthy] at htr
          · rw [processStep_save_attrError loads e s job rest hdl _ hs hc hf
              hidc hp htr rfl]
            exact inv_retryOrFail job rest _ hc hf hle (Or.inr hid') hrest hdOK
          · rw [processStep_save_attrError loads e s job rest hdl _ hs hc hf
              hidc hp htr rfl]
            exact inv_retryOrFail job rest _ hc hf hle (Or.inr hid') hrest hdOK
          · rw [processStep_save_attrError loads e s job rest hdl _ hs hc hf
              hidc hp htr rfl]
            exact inv_retryOrFail job rest _ hc hf hle (Or.inr hid') hrest hdOK
          · rw [processStep_save_attrError loads e s job rest hdl _ hs hc hf
              hidc hp htr rfl]
            exact inv_retryOrFail job rest _ hc hf hle (Or.inr hid') hrest hdOK
          · cases hsv : e.saveRaises with
            | false =>
              rw [processStep_save_ok loads e s job rest hdl fs hs hc hf hidc
                hp htr hsv]
              refine ⟨hrest, ?_⟩
              intro j hj
              rcases List.mem_append.mp hj with hj | hj
              · exact hdOK j hj
              · rw [List.mem_singleton] at hj
                subst hj
                refine ⟨Or.inl rfl, ?_, hid', hle⟩
                rintro ⟨_, h2⟩
                rw [hf] at h2
                exact Bool.false_ne_true h2
            | true =>
              rw [processStep_save_raise loads e s job rest hdl fs hs hc hf
                hidc hp htr hsv]
              exact inv_retryOrFail job rest _ hc hf hle (Or.inr hid') hrest
                hdOK
      case failure =>
        rw [processStep_poll_failure loads e s job rest hdl hs hc hf hidc hp]
        exact inv_retryOrFail job rest s hc hf hle (Or.inr hid') hrest hdOK
      case pending =>
        rw [processStep_poll_pending loads e s job rest hdl hs hc hf hidc hp]
        refine ⟨?_, hdOK⟩
        intro j hj
        rcases List.mem_append.mp hj with hj | hj
        · exact hrest j hj
        · rw [List.mem_singleton] at hj
          subst hj
          exact ⟨hc, hf, himp, hle⟩

theorem inv_initState (db : List DbRow) : Inv (initState db) := by
  constructor
  · intro j hj
    simp only [initState, fetch_pending_rows, List.mem_map] at hj
    obtain ⟨r, _, rfl⟩ := hj
    refine ⟨rfl, rfl, fun _ => ?_, ?_⟩
    · show 0 < MAX_RETRIES
      decide
    · show 0 ≤ MAX_RETRIES
      decide
  · intro j hj
    simp [initState] at hj

theorem inv_processRun (loads : List Char → Option Json) (es : List EnvStep)
    (s : OrchState) (h : Inv s) : Inv (processRun loads es s) := by
  induction es generalizing s with
  | nil => exact h
  | cons e es ih => exact ih _ (inv_processStep loads e s h)

/-! ### Concrete fixtures used by counterexamples and witnesses -/

/-- A pending table row. -/
def rowW : DbRow :=
  { rowid := 5, country := "FR".toList, city := "Paris".toList,
    education_level := "primary".toList }

/-- A one-row database. -/
def dbW : List DbRow := [rowW]

/-- The fresh job created for `rowW`. -/
def jobW0 : Job :=
  { rowid := 5, country := "FR".toList, city := "Paris".toList,
    education_level := "primary".toList }

/-- `jobW0` after its first submission (handle 1, time 0). -/
def jobW1 : Job :=
  { jobW0 with job_id := some 1, submitted_at := some 0, times := 1 }

/-- A truthy payload that lacks the `ccas_status` key. -/
def fsW : List (List Char × Json) := [("notes".toList, Json.str ("x".toList))]

/-- Output text decoding to `Json.obj fsW`. -/
def outW : List Char := "\x7b\x22notes\x22: \x22x\x22\x7d".toList

/-- A concrete decoder: recognises the empty object and `outW`. -/
def loadsW : List Char → Option Json := fun s =>
  if s = "\x7b\x7d".toList then some (Json.obj [])
  else if s = outW then some (Json.obj fsW)
  else none

/-- Environment: a submission that succeeds with handle 1 at time 0. -/
def envSubmitW : EnvStep :=
  { submitRaises := false, handle := 1, now := 0, pollRaises := false,
    status := "queued".toList, output_text := [], saveRaises := false }

/-- Environment: a submission that succeeds with handle 2 at time 10. -/
def envSubmit2W : EnvStep := { envSubmitW with handle := 2, now := 10 }

/-- Environment: `create` raises. -/
def envSubmitRaiseW : EnvStep :=
  { envSubmitW with submitRaises := true, handle := 9 }

/-- Environment: poll finds external status "succeeded" with output
`outW`. -/
def envPollOkW : EnvStep :=
  { submitRaises := false, handle := 0, now := 5, pollRaises := false,
    status := "succeeded".toList, output_text := outW, saveRaises := false }

/-- Environment: poll succeeds externally but the output is the empty
object. -/
def envPollEmptyW : EnvStep :=
  { envPollOkW with output_text := "\x7b\x7d".toList }

/-- Environment: poll finds external status "failed". -/
def envPollFailW : EnvStep :=
  { envPollOkW with status := "failed".toList, output_text := [] }

/-- Environment: second failing poll, later clock. -/
def envPollFail2W : EnvStep := { envPollFailW with now := 15 }

/-- Environment: successful poll and parse, but the database write
raises. -/
def envPollSaveRaiseW : EnvStep := { envPollOkW with saveRaises := true }

/-- The state after submitting the single pending job of `dbW`. -/
def sMidW : OrchState := processStep loadsW envSubmitW (initState dbW)

/-- The fresh job created from a row by `fetch_pending_rows`. -/
def freshJob (r : DbRow) : Job :=
  { rowid := r.rowid, country := r.country, city := r.city,
    education_level := r.education_level }

/-- A job as it looks right after its `n`-th submission with handle `h` at
time `t`. -/
def submittedJob (r : DbRow) (h t n : Nat) : Job :=
  { rowid := r.rowid, country := r.country, city := r.city,
    education_level := r.education_level, job_id := some h,
    submitted_at := some t, times := n }

/-! ### Claims -/

/-- **C9** (confirmed).  Round-trip of the result parser: for a text `t`
decodable as JSON, parsing the fenced form yields the same structured
value as parsing `t` directly.  `loads` is the external `json.loads`,
characterised by the two facts used: no fenced text decodes directly (JSON
never begins with a backtick), and decoding is insensitive to surrounding
whitespace. -/
theorem parse_fenced_roundtrip (loads : List Char → Option Json)
    (t : List Char) (v : Json)
    (hfence : loads (fenceWrap t) = none)
    (hstrip : loads (pyStrip t) = loads t)
    (hv : loads t = some v) :
    parseOutput loads (fenceWrap t) = some v ∧
    parseOutput loads t = some v := by
  constructor
  · unfold parseOutput
    rw [hfence, stripFences_fenceWrap, hstrip, hv]
  · unfold parseOutput
    rw [hv]

/-- Witness for C9 at the concrete fenced payload `outW`. -/
theorem parse_fenced_roundtrip_witness :
    parseOutput loadsW (fenceWrap outW) = some (Json.obj fsW) ∧
    parseOutput loadsW outW = some (Json.obj fsW) :=
  parse_fenced_roundtrip loadsW outW (Json.obj fsW) rfl rfl rfl

/-- **C2** (confirmed).  At every point of every run started from
`fetch_pending_rows`, the attempt counter `times` of every job — still
queued or already dropped — never exceeds `MAX_RETRIES`. -/
theorem attempt_count_bounded (loads : List Char → Option Json)
    (es : List EnvStep) (db : List DbRow) (j : Job)
    (hj : j ∈ (processRun loads es (initState db)).queue ∨
          j ∈ (processRun loads es (initState db)).dropped) :
    j.times ≤ MAX_RETRIES := by
  have h := inv_processRun loads es _ (inv_initState db)
  rcases hj with hj | hj
  · exact (h.1 j hj).2.2.2
  · exact (h.2 j hj).2.2.2

/-- Witness for C2: the job of `dbW` after one successful submission. -/
theorem attempt_count_bounded_witness : jobW1.times ≤ MAX_RETRIES :=
  attempt_count_bounded loadsW [envSubmitW] dbW jobW1 (Or.inl (by decide))

/-- **C3** (confirmed).  With `MAX_RETRIES = 2`, a job whose poll after
each of its two submissions classifies as `Failure` ends the run `failed`
with `times = 2 = MAX_RETRIES`; `save_result` is never invoked and the
database is unchanged, so its record remains unresolved. -/
theorem retry_exhaustion (loads : List Char → Option Json)
    (e1 e2 e3 e4 : EnvStep) (r : DbRow)
    (hp : rowPending r = true)
    (h1 : e1.submitRaises = false) (h3 : e3.submitRaises = false)
    (hf2 : poll_result loads e2 (submittedJob r e1.handle e1.now 1) =
      PollRes.failure)
    (hf4 : poll_result loads e4 (submittedJob r e3.handle e3.now 2) =
      PollRes.failure) :
    (processRun loads [e1, e2, e3, e4] (initState [r])).queue = [] ∧
    (processRun loads [e1, e2, e3, e4] (initState [r])).dropped =
      [{ submittedJob r e3.handle e3.now 2 with failed := true }] ∧
    (processRun loads [e1, e2, e3, e4] (initState [r])).saveCalls = [] ∧
    (processRun loads [e1, e2, e3, e4] (initState [r])).db = [r] ∧
    ({ submittedJob r e3.handle e3.now 2 with failed := true } : Job).times
      = MAX_RETRIES := by
  have hq0 : (initState [r]).queue = freshJob r :: [] := by
    simp [initState, fetch_pending_rows, List.filter_cons, hp, freshJob]
  have hA : processStep loads e1 (initState [r]) =
      { queue := [submittedJob r e1.handle e1.now 1], dropped := [],
        db := [r], saveCalls := [] } :=
    processStep_submit_ok loads e1 (initState [r]) (freshJob r) [] hq0 rfl
      rfl rfl (by show 0 < MAX_RETRIES; decide) h1
  have hB : processStep loads e2
      ({ queue := [submittedJob r e1.handle e1.now 1], dropped := [],
         db := [r], saveCalls := [] } : OrchState) =
      { queue := [{ submittedJob r e1.handle e1.now 1 with job_id := none }],
        dropped := [], db := [r], saveCalls := [] } := by
    rw [processStep_poll_failure loads e2 _
      (submittedJob r e1.handle e1.now 1) [] e1.handle rfl rfl rfl rfl hf2]
    unfold retryOrFail
    rw [if_pos (by show 1 < MAX_RETRIES; decide)]
    rfl
  have hC : processStep loads e3
      ({ queue := [{ submittedJob r e1.handle e1.now 1 with job_id := none }],
         dropped := [], db := [r], saveCalls := [] } : OrchState) =
      { queue := [submittedJob r e3.handle e3.now 2], dropped := [],
        db := [r], saveCalls := [] } :=
    processStep_submit_ok loads e3 _
      { submittedJob r e1.handle e1.now 1 with job_id := none } [] rfl rfl
      rfl rfl (by show 1 < MAX_RETRIES; decide) h3
  have hD : processStep loads e4
      ({ queue := [submittedJob r e3.handle e3.now 2], dropped := [],
         db := [r], saveCalls := [] } : OrchState) =
      { queue := [],
        dropped := [{ submittedJob r e3.handle e3.now 2 with failed := true }],
        db := [r], saveCalls := [] } := by
    rw [processStep_poll_failure loads e4 _
      (submittedJob r e3.handle e3.now 2) [] e3.handle rfl rfl rfl rfl hf4]
    unfold retryOrFail
    rw [if_neg (by show ¬ (2 : Nat) < MAX_RETRIES; decide)]
    rfl
  have hall : processRun loads [e1, e2, e3, e4] (initState [r]) =
      { queue := [],
        dropped := [{ submittedJob r e3.handle e3.now 2 with failed := true }],
        db := [r], saveCalls := [] } := by
    show processStep loads e4 (processStep loads e3 (processStep loads e2
      (processStep loads e1 (initState [r])))) = _
    rw [hA, hB, hC, hD]
  rw [hall]
  exact ⟨rfl, rfl, rfl, rfl, rfl⟩

/-- Witness for C3: the concrete two-submissions-two-failures run on `dbW`. -/
theorem retry_exhaustion_witness :
    (processRun loadsW [envSubmitW, envPollFailW, envSubmit2W, envPollFail2W]
      (initState [rowW])).queue = [] :=
  (retry_exhaustion loadsW envSubmitW envPollFailW envSubmit2W envPollFail2W
    rowW rfl rfl rfl rfl rfl).1

/-- **C8** (confirmed).  A job submitted at `t0`, polled 21 minutes later
while the external status is still "running", yields the `Failure`
outcome: the elapsed time exceeds `JOB_TIMEOUT_MINUTES = 20` minutes, and
the timeout disjunct fires even though the status alone would classify as
pending. -/
theorem timeout_poll_failure (loads : List Char → Option Json) (e : EnvStep)
    (job : Job) (h t0 : Nat)
    (hid : job.job_id = some h) (hsub : job.submitted_at = some t0)
    (hpr : e.pollRaises = false) (hst : e.status = "running".toList)
    (hnow : e.now = t0 + 21 * 60) :
    poll_result loads e job = PollRes.failure := by
  have harith : t0 + 21 * 60 - t0 > JOB_TIMEOUT_MINUTES * 60 := by
    unfold JOB_TIMEOUT_MINUTES
    omega
  simp +decide [poll_result, hid, hsub, hpr, hst, hnow, harith]

/-- Environment: poll at minute 21, external status still "running". -/
def envTimeoutW : EnvStep :=
  { submitRaises := false, handle := 0, now := 21 * 60, pollRaises := false,
    status := "running".toList, output_text := [], saveRaises := false }

/-- Witness for C8 at the concrete submitted job `jobW1`. -/
theorem timeout_poll_failure_witness :
    poll_result loadsW envTimeoutW jobW1 = PollRes.failure :=
  timeout_poll_failure loadsW envTimeoutW jobW1 1 0 rfl rfl rfl rfl rfl

/-- **C7** (confirmed).  A dequeued terminal job is dropped without being
appended back, and — in every invariant-respecting state, in particular
every reachable one — no transition puts a completed or failed job into
the queue. -/
theorem terminal_never_reenqueued (loads : List Char → Option Json)
    (e : EnvStep) (s : OrchState) :
    (∀ job rest, s.queue = job :: rest →
       job.completed = true ∨ job.failed = true →
       (processStep loads e s).queue = rest ∧
       (processStep loads e s).dropped = s.dropped ++ [job]) ∧
    (Inv s → ∀ j ∈ (processStep loads e s).queue,
       j.completed = false ∧ j.failed = false) := by
  constructor
  · intro job rest hq hterm
    rw [processStep_terminal loads e s job rest hq hterm]
    exact ⟨rfl, rfl⟩
  · intro hinv j hj
    have h := (inv_processStep loads e s hinv).1 j hj
    exact ⟨h.1, h.2.1⟩

/-- A job already completed, sitting at the head of a queue. -/
def jobTermW : Job := { jobW0 with completed := true }

/-- A state whose queue head is terminal. -/
def sTermW : OrchState :=
  { queue := [jobTermW], dropped := [], db := dbW, saveCalls := [] }

/-- Witness for C7: a terminal head is dropped; a freshly submitted queued
job is not terminal. -/
theorem terminal_never_reenqueued_witness :
    ((processStep loadsW envSubmitW sTermW).queue = [] ∧
     (processStep loadsW envSubmitW sTermW).dropped = [] ++ [jobTermW]) ∧
    (jobW1.completed = false ∧ jobW1.failed = false) := by
  constructor
  · exact (terminal_never_reenqueued loadsW envSubmitW sTermW).1 jobTermW []
      rfl (Or.inl rfl)
  · exact (terminal_never_reenqueued loadsW envSubmitW (initState dbW)).2
      (inv_initState dbW) jobW1 (by decide)

/-- **C1** counterexample.  When `create` raises on the very first
submission attempt, the re-enqueued job still has `times = 0`, not
`0 + 1`: the failed call to the external API is NOT counted as an
attempt, because `job.times += 1` runs only after `create` returns. -/
theorem submit_error_attempt_cex :
    (processStep loadsW envSubmitRaiseW (initState dbW)).queue.map Job.times
      = [0] ∧
    ¬ ((processStep loadsW envSubmitRaiseW (initState dbW)).queue.map
        Job.times = [0 + 1]) := by
  decide

/-- **C1** amended.  If the `create` call raises, the job is re-enqueued
completely unchanged: `attempt_count` is NOT incremented (the raise
precedes the increment), the handle stays absent, and the job will simply
be resubmitted on its next turn without having consumed retry budget. -/
theorem submit_error_no_attempt (loads : List Char → Option Json)
    (e : EnvStep) (s : OrchState) (job : Job) (rest : List Job)
    (hq : s.queue = job :: rest) (hc : job.completed = false)
    (hf : job.failed = false) (hid : job.job_id = none)
    (hlt : job.times < MAX_RETRIES) (hr : e.submitRaises = true) :
    processStep loads e s = { s with queue := rest ++ [job] } := by
  rw [processStep_submit_raise loads e s job rest hq hc hf hid hlt hr]
  have hjob : ({ job with job_id := none } : Job) = job := by
    cases job
    simp_all
  rw [hjob]

/-- Witness for the amended C1 on the one-job database. -/
theorem submit_error_no_attempt_witness :
    processStep loadsW envSubmitRaiseW (initState dbW) =
      { initState dbW with queue := [] ++ [jobW0] } :=
  submit_error_no_attempt loadsW envSubmitRaiseW (initState dbW) jobW0 []
    (by decide) rfl rfl rfl (by decide) rfl

/-- The run in which the poll succeeds externally but the output decodes
to the falsy empty object. -/
def runFalsyW : OrchState :=
  processRun loadsW [envSubmitW, envPollEmptyW] (initState dbW)

/-- **C4** counterexample.  The poll reports completion and the output
parses successfully to the empty object — a falsy value — yet
`save_result` is never invoked and the job is not marked completed: the
`if done is True and json_output` truthiness test sends it to the
still-pending branch and re-enqueues it. -/
theorem success_falsy_not_saved_cex :
    sMidW.queue = [jobW1] ∧
    poll_result loadsW envPollEmptyW jobW1 = PollRes.success (Json.obj []) ∧
    runFalsyW.saveCalls = [] ∧
    runFalsyW.dropped = [] ∧
    runFalsyW.queue.map Job.completed = [false] :=
  ⟨by decide, rfl, rfl, by decide, by decide⟩

/-- **C4** amended.  For an in-flight job whose poll reports completion
and whose output parses to a TRUTHY JSON object, with the store write not
raising, the orchestrator invokes `save_result` exactly once with that
payload, marks the job completed and drops it, leaving the rest of the
queue in place. -/
theorem success_truthy_saved (loads : List Char → Option Json) (e : EnvStep)
    (s : OrchState) (job : Job) (rest : List Job) (h : Nat)
    (fs : List (List Char × Json))
    (hq : s.queue = job :: rest) (hc : job.completed = false)
    (hf : job.failed = false) (hid : job.job_id = some h)
    (hpoll : poll_result loads e job = PollRes.success (Json.obj fs))
    (htr : truthy (Json.obj fs) = true) (hsr : e.saveRaises = false) :
    (processStep loads e s).saveCalls =
      s.saveCalls ++ [(job.rowid, Json.obj fs)] ∧
    (processStep loads e s).dropped =
      s.dropped ++ [{ job with completed := true }] ∧
    (processStep loads e s).queue = rest ∧
    (processStep loads e s).db = s.db.map fun r =>
      if r.rowid = job.rowid then updateRow r fs else r := by
  rw [processStep_save_ok loads e s job rest h fs hq hc hf hid hpoll htr hsr]
  exact ⟨rfl, rfl, rfl, rfl⟩

/-- Witness for the amended C4 on the concrete truthy payload `fsW`. -/
theorem success_truthy_saved_witness :
    (processStep loadsW envPollOkW sMidW).queue = [] :=
  (success_truthy_saved loadsW envPollOkW sMidW jobW1 [] 1 fsW (by decide)
    rfl rfl rfl rfl rfl rfl).2.2.1

/-- The run in which the store write of a successful result raises. -/
def runSaveRaiseW : OrchState :=
  processRun loadsW [envSubmitW, envPollSaveRaiseW] (initState dbW)

/-- **C5** counterexample.  `save_result` raises on a successful, parsed
result (the invocation is logged), yet the job is NOT terminal: it is
re-enqueued with its handle cleared, and on its next turn it is
resubmitted to the external API (`times` goes to 2). -/
theorem persist_error_cex :
    runSaveRaiseW.saveCalls = [(5, Json.obj fsW)] ∧
    runSaveRaiseW.dropped = [] ∧
    runSaveRaiseW.queue.map
      (fun j => (j.job_id, j.times, j.completed, j.failed))
      = [(none, 1, false, false)] ∧
    (processStep loadsW envSubmit2W runSaveRaiseW).queue.map Job.times
      = [2] :=
  ⟨rfl, by decide, by decide, by decide⟩

/-- **C5** amended.  A raising `save_result` is handled by the generic
retry path of the broad exception handler: the invocation is logged and
the database is unchanged; with retry budget left the job's handle is
cleared and it is re-enqueued (eligible for resubmission), otherwise it is
marked failed and dropped.  The rest of the queue is untouched either
way, so processing continues for other jobs. -/
theorem persist_error_retries (loads : List Char → Option Json)
    (e : EnvStep) (s : OrchState) (job : Job) (rest : List Job) (h : Nat)
    (fs : List (List Char × Json))
    (hq : s.queue = job :: rest) (hc : job.completed = false)
    (hf : job.failed = false) (hid : job.job_id = some h)
    (hpoll : poll_result loads e job = PollRes.success (Json.obj fs))
    (htr : truthy (Json.obj fs) = true) (hsr : e.saveRaises = true) :
    (processStep loads e s).saveCalls =
      s.saveCalls ++ [(job.rowid, Json.obj fs)] ∧
    (processStep loads e s).db = s.db ∧
    (job.times < MAX_RETRIES →
      (processStep loads e s).queue = rest ++ [{ job with job_id := none }] ∧
      (processStep loads e s).dropped = s.dropped) ∧
    (¬ job.times < MAX_RETRIES →
      (processStep loads e s).queue = rest ∧
      (processStep loads e s).dropped =
        s.dropped ++ [{ job with failed := true }]) := by
  rw [processStep_save_raise loads e s job rest h fs hq hc hf hid hpoll htr
    hsr]
  unfold retryOrFail
  by_cases hlt : job.times < MAX_RETRIES
  · rw [if_pos hlt]
    exact ⟨rfl, rfl, fun _ => ⟨rfl, rfl⟩, fun hcon => absurd hlt hcon⟩
  · rw [if_neg hlt]
    exact ⟨rfl, rfl, fun hcon => absurd hcon hlt, fun _ => ⟨rfl, rfl⟩⟩

/-- Witness for the amended C5: with budget left the job is re-enqueued
with its handle cleared. -/
theorem persist_error_retries_witness :
    (processStep loadsW envPollSaveRaiseW sMidW).queue
      = [] ++ [{ jobW1 with job_id := none }] :=
  ((persist_error_retries loadsW envPollSaveRaiseW sMidW jobW1 [] 1 fsW
    (by decide) rfl rfl rfl rfl rfl rfl).2.2.1 (by decide)).1

/-- The run in which the single job completes successfully. -/
def runCompletedW : OrchState :=
  processRun loadsW [envSubmitW, envPollOkW] (initState dbW)

/-- The job of `dbW` after completing. -/
def jobDoneW : Job := { jobW1 with completed := true }

/-- **C6** counterexample.  A job dropped in the terminal `completed`
state still carries `job_id = some 1`: the handle is never cleared on a
terminal transition, so "terminal implies no external handle" fails. -/
theorem handle_terminal_cex :
    jobDoneW ∈ runCompletedW.dropped ∧
    (jobDoneW.completed = true ∨ jobDoneW.failed = true) ∧
    ¬ jobDoneW.job_id = none := by
  decide

/-- **C6** amended.  In every reachable state: queued jobs are never
terminal, and a queued job lacks a handle only while it still has retry
budget (it is awaiting (re)submission); a job dropped in a terminal state
always retains the handle of its last submission — the handle is not
cleared on terminal transitions. -/
theorem handle_invariant_amended (loads : List Char → Option Json)
    (es : List EnvStep) (db : List DbRow) :
    (∀ j ∈ (processRun loads es (initState db)).queue,
       j.completed = false ∧ j.failed = false ∧
       (j.job_id = none → j.times < MAX_RETRIES)) ∧
    (∀ j ∈ (processRun loads es (initState db)).dropped,
       (j.completed = true ∨ j.failed = true) ∧ j.job_id ≠ none) := by
  have h := inv_processRun loads es _ (inv_initState db)
  constructor
  · intro j hj
    obtain ⟨h1, h2, h3, _⟩ := h.1 j hj
    exact ⟨h1, h2, h3⟩
  · intro j hj
    obtain ⟨h1, _, h3, _⟩ := h.2 j hj
    exact ⟨h1, h3⟩

/-- Witness for the amended C6 at a queued and a dropped concrete job. -/
theorem handle_invariant_amended_witness :
    (jobW1.completed = false ∧ jobW1.failed = false ∧
      (jobW1.job_id = none → jobW1.times < MAX_RETRIES)) ∧
    ((jobDoneW.completed = true ∨ jobDoneW.failed = true) ∧
      jobDoneW.job_id ≠ none) := by
  constructor
  · exact (handle_invariant_amended loadsW [envSubmitW] dbW).1 jobW1
      (by decide)
  · exact (handle_invariant_amended loadsW [envSubmitW, envPollOkW] dbW).2
      jobDoneW (by decide)

/-- A row updated from a payload whose `ccas_status` is missing or null
gets the empty string there, hence still satisfies the pending filter. -/
theorem rowPending_updateRow (r0 : DbRow) (fs : List (List Char × Json))
    (hstat : toTextOpt (jget fs ("ccas_status".toList)) = []) :
    rowPending (updateRow r0 fs) = true := by
  simp only [rowPending, updateRow]
  rw [hstat]
  rfl

/-- **C10** (confirmed).  If the successfully parsed (truthy) payload of a
completed job lacks the `ccas_status` key or maps it to null, the job is
marked completed and dropped in this run, yet every row it updated
satisfies the pending criterion of `fetch_pending_rows`, and the record is
fetched again as a fresh pending job on the next run. -/
theorem missing_status_completed_but_pending (loads : List Char → Option Json)
    (e : EnvStep) (s : OrchState) (job : Job) (rest : List Job) (h : Nat)
    (fs : List (List Char × Json))
    (hq : s.queue = job :: rest) (hc : job.completed = false)
    (hf : job.failed = false) (hid : job.job_id = some h)
    (hpoll : poll_result loads e job = PollRes.success (Json.obj fs))
    (htr : truthy (Json.obj fs) = true) (hsr : e.saveRaises = false)
    (hkey : jget fs ("ccas_status".toList) = none ∨
            jget fs ("ccas_status".toList) = some Json.null) :
    (processStep loads e s).dropped =
      s.dropped ++ [{ job with completed := true }] ∧
    (∀ r ∈ (processStep loads e s).db, r.rowid = job.rowid →
      rowPending r = true) ∧
    (∀ r0 ∈ s.db, r0.rowid = job.rowid →
      ∃ j0 ∈ fetch_pending_rows (processStep loads e s).db,
        j0.rowid = job.rowid) := by
  have hstat : toTextOpt (jget fs ("ccas_status".toList)) = [] := by
    rcases hkey with hk | hk <;> rw [hk] <;> rfl
  rw [processStep_save_ok loads e s job rest h fs hq hc hf hid hpoll htr hsr]
  refine ⟨rfl, ?_, ?_⟩
  · intro r hr hrid
    simp only [List.mem_map] at hr
    obtain ⟨r0, hr0, rfl⟩ := hr
    by_cases hb : r0.rowid = job.rowid
    · rw [if_pos hb]
      exact rowPending_updateRow r0 fs hstat
    · rw [if_neg hb] at hrid
      exact absurd hrid hb
  · intro r0 hr0 hrid
    refine ⟨freshJob (updateRow r0 fs), ?_, hrid⟩
    simp only [fetch_pending_rows, List.mem_map]
    refine ⟨updateRow r0 fs, ?_, rfl⟩
    rw [List.mem_filter]
    constructor
    · simp only [List.mem_map]
      exact ⟨r0, hr0, by rw [if_pos hrid]⟩
    · exact rowPending_updateRow r0 fs hstat

/-- Witness for C10 on the payload `fsW`, which lacks `ccas_status`. -/
theorem missing_status_completed_but_pending_witness :
    (processStep loadsW envPollOkW sMidW).dropped
      = sMidW.dropped ++ [{ jobW1 with completed := true }] :=
  (missing_status_completed_but_pending loadsW envPollOkW sMidW jobW1 [] 1
    fsW (by decide) rfl rfl rfl rfl rfl rfl (Or.inl rfl)).1

end DeepResearch
